import Mathlib

/-!
Verification of the CodeProof backend (Laravel-first code intelligence).

This file gives a shallow embedding of the deterministic core of the
repository's Python services and proves the frozen specification claims
about them:

* `QAService._validate_answer` and `QAService._calculate_confidence`
  (answer validation and confidence tiers),
* `QAService._retrieve_sources` (hybrid trigram/vector retrieval merge
  and ordering),
* `QAService._fetch_snippets` (snippet extraction and truncation),
* `HighPrecisionAnalyzer` (secret patterns, dangerous files, redaction,
  diff-line scoping),
* `LaravelRouteParser` (group context inheritance and resource
  expansion).

Python strings are modelled as Lean `String` (a structure over
`List Char`); all string operations used by the embedding are written
as structural recursion over the character list so that every
definition evaluates inside the kernel.  Python `float` scores are
modelled as `ℚ`; Python `int` as `Int` or `Nat` as appropriate;
Python sets as `Finset`.
-/

namespace CodeProof

/-! ## String helpers (models of Python `str` operations) -/

/-- Model of Python `str.split('\n')` on the character list: splits at
every newline, keeping empty segments (so `""` yields `[""]` and a
trailing newline yields a trailing empty segment). -/
def splitLinesList : List Char → List (List Char)
  | [] => [[]]
  | c :: cs =>
    if c = '\n' then [] :: splitLinesList cs
    else
      match splitLinesList cs with
      | [] => [[c]]
      | l :: ls => (c :: l) :: ls

/-- Split a string into its lines, Python `content.split('\n')`. -/
def splitLines (s : String) : List String :=
  (splitLinesList s.toList).map String.mk

/-- Model of Python `'\n'.join(lines)`. -/
def joinLines : List String → String
  | [] => ""
  | [l] => l
  | l :: ls => l ++ "\n" ++ joinLines ls

/-- First `n` characters of a string, Python `s[:n]`. -/
def strTake (s : String) (n : Nat) : String :=
  String.mk (s.toList.take n)

/-- All but the first `n` characters, Python `s[n:]`. -/
def strDrop (s : String) (n : Nat) : String :=
  String.mk (s.toList.drop n)

/-- Characters `a` (inclusive) to `b` (exclusive), Python `s[a:b]`
for `0 ≤ a ≤ b`. -/
def strSlice (s : String) (a b : Nat) : String :=
  String.mk ((s.toList.drop a).take (b - a))

/-- Number of characters, Python `len(s)`. -/
def strLen (s : String) : Nat :=
  s.toList.length

/-- A run of `n` `'*'` characters, Python `'*' * n`. -/
def stars (n : Nat) : String :=
  String.mk (List.replicate n '*')

/-- Lower-cased string, Python `s.lower()` (ASCII letters, which is all
the embedding compares). -/
def strLower (s : String) : String :=
  String.mk (s.toList.map Char.toLower)

/-- Upper-cased string, Python `s.upper()` (ASCII letters). -/
def strUpper (s : String) : String :=
  String.mk (s.toList.map Char.toUpper)

/-- Decides whether `sub` occurs as a contiguous infix of `l`. -/
def listHasInfix (sub : List Char) : List Char → Bool
  | [] => sub.isEmpty
  | c :: t => sub.isPrefixOf (c :: t) || listHasInfix sub t

/-- Model of Python `sub in s` on strings (substring containment). -/
def strContainsSub (s sub : String) : Bool :=
  listHasInfix sub.toList s.toList

/-- Model of Python `s.startswith(p)`. -/
def strStartsWith (s p : String) : Bool :=
  p.toList.isPrefixOf s.toList

/-- Model of Python `s.endswith(p)`. -/
def strEndsWith (s p : String) : Bool :=
  p.toList.reverse.isPrefixOf s.toList.reverse

/-- Model of Python `s.strip(ch)` for a single strip character:
removes every leading and trailing occurrence of `ch`. -/
def strStripChar (s : String) (ch : Char) : String :=
  String.mk
    (((s.toList.dropWhile (· = ch)).reverse.dropWhile (· = ch)).reverse)

/-- Model of Python `path.split('/')[-1]` (the file basename). -/
def basenameList : List Char → List Char → List Char
  | acc, [] => acc.reverse
  | acc, c :: cs => if c = '/' then basenameList [] cs else basenameList (c :: acc) cs

/-- File basename, the text after the final `'/'`. -/
def basename (path : String) : String :=
  String.mk (basenameList [] path.toList)

/-! ## Q&A data model (`backend/app/services/qa_service.py`)

`ConfidenceTier`, `RetrievedSource`, `AnswerSection` and
`ValidatedAnswer` are the dataclasses of the Q&A service.  The parsed
LLM output (`parsed: Dict`) is modelled by `ParsedAnswer`: the
validator reads only `parsed['sections']` (each with `text` and
`source_ids`, defaulting to `''` and `[]`) and `parsed['unknowns']`. -/

/-- Discrete confidence tiers of the Q&A service. -/
inductive ConfidenceTier where
  | high
  | medium
  | low
  | none
deriving DecidableEq, Repr

/-- A source retrieved from hybrid search.  Python `float` scores are
modelled as `ℚ`. -/
structure RetrievedSource where
  index : Int
  file_path : String
  start_line : Nat
  end_line : Nat
  content : String
  symbol_name : Option String
  score : ℚ
  source_type : String
deriving DecidableEq, Repr

/-- A section of the validated answer with its citations. -/
structure AnswerSection where
  text : String
  source_ids : List Int
deriving DecidableEq, Repr

/-- One entry of `parsed['sections']`: `section_data.get('text', '')`
and `section_data.get('source_ids', [])`. -/
structure ParsedSection where
  text : String
  source_ids : List Int
deriving DecidableEq, Repr

/-- The parsed JSON answer as read by `_validate_answer`. -/
structure ParsedAnswer where
  sections : List ParsedSection
  unknowns : List String
deriving DecidableEq, Repr

/-- The `confidence_factors` dictionary: either the
`{"reason": "no_sections"}` shape or the four computed factors. -/
inductive ConfidenceFactors where
  | noSections
  | factors (citation_count : Nat) (unique_files : Nat)
      (has_entrypoints : Bool) (section_count : Nat)
deriving DecidableEq, Repr

/-- A fully validated answer (`ValidatedAnswer` dataclass). -/
structure ValidatedAnswer where
  sections : List AnswerSection
  unknowns : List String
  confidence_tier : ConfidenceTier
  confidence_factors : ConfidenceFactors
  validation_passed : Bool
  validation_errors : List String
deriving DecidableEq, Repr

/-- The set `valid_source_ids = {s.index for s in sources}`. -/
def validIndexSet (sources : List RetrievedSource) : Finset Int :=
  (sources.map (·.index)).toFinset

/-- The set of all cited source ids across the given sections:
`cited_ids = set(); for section in sections: cited_ids.update(section.source_ids)`. -/
def citedIds (sections : List AnswerSection) : Finset Int :=
  sections.foldl (fun acc s => acc ∪ s.source_ids.toFinset) ∅

/-- The cited sources, `[s for s in sources if s.index in cited_ids]`. -/
def citedSources (sections : List AnswerSection)
    (sources : List RetrievedSource) : List RetrievedSource :=
  sources.filter (fun s => s.index ∈ citedIds sections)

/-- Number of distinct files the cited sources inhabit:
`len(set(s.file_path for s in cited_sources))`. -/
def uniqueCitedFiles (sections : List AnswerSection)
    (sources : List RetrievedSource) : Nat :=
  ((citedSources sections sources).map (·.file_path)).toFinset.card

/-- Whether any cited source looks like an entrypoint:
`'controller' in s.file_path.lower() or 'route' in s.file_path.lower()`. -/
def hasEntrypoints (sections : List AnswerSection)
    (sources : List RetrievedSource) : Bool :=
  (citedSources sections sources).any
    (fun s =>
      strContainsSub (strLower s.file_path) "controller" ||
      strContainsSub (strLower s.file_path) "route")

/-- Embedding of `QAService._calculate_confidence`: the discrete tier
computed from citation coverage, together with the factors dict. -/
def calculate_confidence (sections : List AnswerSection)
    (sources : List RetrievedSource) : ConfidenceTier × ConfidenceFactors :=
  if sections = [] then
    (ConfidenceTier.none, ConfidenceFactors.noSections)
  else
    let factors := ConfidenceFactors.factors (citedIds sections).card
      (uniqueCitedFiles sections sources) (hasEntrypoints sections sources)
      sections.length
    if 3 ≤ (citedIds sections).card ∧ 2 ≤ uniqueCitedFiles sections sources then
      (ConfidenceTier.high, factors)
    else if 2 ≤ (citedIds sections).card then
      (ConfidenceTier.medium, factors)
    else if 1 ≤ (citedIds sections).card then
      (ConfidenceTier.low, factors)
    else
      (ConfidenceTier.none, factors)

/-- The per-section loop of `QAService._validate_answer`, over the
enumerated parsed sections.  Returns `(errors, surviving sections)` in
emission order.  A section with empty `text` is dropped with an error;
a section with no `source_ids` is dropped with an error; invalid ids
(ids outside `valid`) are dropped with an error, and if no valid id
remains the section is dropped. -/
def validate_sections (valid : Finset Int) :
    List (Nat × ParsedSection) → List String × List AnswerSection
  | [] => ([], [])
  | (i, sd) :: rest =>
    let tail := validate_sections valid rest
    if sd.text = "" then
      (("Section " ++ toString i ++ " has no text") :: tail.1, tail.2)
    else if sd.source_ids = [] then
      (("Section " ++ toString i ++ " has no source_ids") :: tail.1, tail.2)
    else
      let invalid_ids := sd.source_ids.filter (fun sid => sid ∉ valid)
      let kept := sd.source_ids.filter (fun sid => sid ∈ valid)
      let errs :=
        if invalid_ids = [] then tail.1
        else ("Section " ++ toString i ++ " references invalid source_ids: "
          ++ toString invalid_ids) :: tail.1
      if kept = [] then (errs, tail.2)
      else (errs, ⟨sd.text, kept⟩ :: tail.2)

/-- Embedding of `QAService._validate_answer`. -/
def validate_answer (parsed : ParsedAnswer)
    (sources : List RetrievedSource) : ValidatedAnswer :=
  let valid := validIndexSet sources
  let es := validate_sections valid parsed.sections.enum
  let cf := calculate_confidence es.2 sources
  { sections := es.2
    unknowns := parsed.unknowns
    confidence_tier := cf.1
    confidence_factors := cf.2
    validation_passed := es.1.isEmpty
    validation_errors := es.1 }

/-! ## High-precision analyzer data model
(`backend/app/analyzers/high_precision_analyzer.py`) -/

/-- Finding severities. -/
inductive Severity where
  | critical
  | warning
  | info
deriving DecidableEq, Repr

/-- Finding categories. -/
inductive Category where
  | secret_exposure
  | migration_destructive
  | auth_middleware_removed
  | dependency_changed
  | env_leaked
  | private_key_exposed
deriving DecidableEq, Repr

/-- The `evidence` dictionary attached to a finding.  Keys that a given
detector does not set are `Option.none` (Python `match` is spelled
`matched` because `match` is a Lean keyword). -/
structure Evidence where
  snippet : String
  pattern : Option String := Option.none
  matched : Option String := Option.none
  reason : String := ""
  confidence : String := ""
  operation : Option String := Option.none
  target : Option String := Option.none
  middleware : Option String := Option.none
deriving DecidableEq, Repr

/-- A high-precision finding (`Finding` dataclass). -/
structure Finding where
  severity : Severity
  category : Category
  file_path : String
  start_line : Nat
  end_line : Nat
  evidence : Evidence
deriving DecidableEq, Repr

/-- One entry of `EXACT_PATTERNS`.  The compiled regex is modelled as
an abstract `matcher` returning the span `(start, end)` in character
positions of the leftmost match of the pattern in a line (Python
`pattern.search(line)` / `match.span()`), or `Option.none` when the
line does not match.  The `redact` lambdas of the source are all
constant strings, so `redact` is a `String`. -/
structure ExactPattern where
  matcher : String → Option (Nat × Nat)
  name : String
  category : Category
  severity : Severity
  redact : String

/-- One entry of `DESTRUCTIVE_MIGRATION_PATTERNS`: the compiled regex
plus target extraction is modelled as an abstract matcher returning
the extracted target (possibly `""`) when the line matches. -/
structure MigrationPattern where
  matcher : String → Option String
  name : String

/-- Python truthiness test `if len(secret) > 12` branch of
`HighPrecisionAnalyzer._redact_line`: keep the first 4 and last 4
characters and star the interior; for matches of length at most 12
keep only the first 2 characters. -/
def redact_secret (secret : String) : String :=
  if 12 < strLen secret then
    strTake secret 4 ++ stars (strLen secret - 8) ++ strDrop secret (strLen secret - 4)
  else
    strTake secret 2 ++ stars (strLen secret - 2)

/-- Embedding of `HighPrecisionAnalyzer._redact_line` given the match
span `(s, e)` (so `match.group() = line[s:e]`): the line with the
matched span replaced, in place, by its redaction. -/
def redact_line (line : String) (s e : Nat) : String :=
  strTake line s ++ redact_secret (strSlice line s e) ++ strDrop line e

/-- The `skip_patterns` list of `_should_skip_file`. -/
def SKIP_PATTERNS : List String :=
  [".lock", ".min.js", ".min.css", ".map", ".svg", ".png", ".jpg",
   ".gif", ".ico", ".woff", ".ttf", "/vendor/", "/node_modules/",
   "/dist/", "/build/", "__pycache__"]

/-- Embedding of `HighPrecisionAnalyzer._should_skip_file`. -/
def should_skip_file (file_path : String) : Bool :=
  SKIP_PATTERNS.any (fun pat => strContainsSub (strLower file_path) pat)

/-- The per-line skip test shared by the three line-level detectors:
Python `if diff_lines and line_num not in diff_lines: continue`.
An empty list is falsy in Python, so `some []` skips nothing, exactly
like `Option.none`. -/
def skipLine (diff_lines : Option (List Nat)) (line_num : Nat) : Bool :=
  match diff_lines with
  | Option.none => false
  | Option.some l => !l.isEmpty && !(l.contains line_num)

/-- Embedding of `HighPrecisionAnalyzer._check_exact_patterns`,
parameterised by the pattern list (the source instantiates it with
`EXACT_PATTERNS`). -/
def check_exact_patterns (patterns : List ExactPattern)
    (file_path content : String) (diff_lines : Option (List Nat)) :
    List Finding :=
  if should_skip_file file_path then []
  else
    (splitLines content).enum.flatMap fun p =>
      let line_num := p.1 + 1
      let line := p.2
      if skipLine diff_lines line_num then []
      else
        patterns.filterMap fun pat =>
          match pat.matcher line with
          | Option.none => Option.none
          | Option.some (s, e) =>
            Option.some
              { severity := pat.severity
                category := pat.category
                file_path := file_path
                start_line := line_num
                end_line := line_num
                evidence :=
                  { snippet := redact_line line s e
                    pattern := Option.some pat.name
                    matched := Option.some pat.redact
                    reason := pat.name ++ " detected - this should not be in code"
                    confidence := "exact_match" } }

/-- Strip leading and trailing whitespace, Python `line.strip()`. -/
def strStripWs (s : String) : String :=
  String.mk
    (((s.toList.dropWhile Char.isWhitespace).reverse.dropWhile
      Char.isWhitespace).reverse)

/-- Embedding of `HighPrecisionAnalyzer._check_destructive_migrations`,
parameterised by the migration pattern list. -/
def check_destructive_migrations (patterns : List MigrationPattern)
    (file_path content : String) (diff_lines : Option (List Nat)) :
    List Finding :=
  (splitLines content).enum.flatMap fun p =>
    let line_num := p.1 + 1
    let line := p.2
    if skipLine diff_lines line_num then []
    else
      patterns.filterMap fun pat =>
        match pat.matcher line with
        | Option.none => Option.none
        | Option.some target =>
          Option.some
            { severity := Severity.critical
              category := Category.migration_destructive
              file_path := file_path
              start_line := line_num
              end_line := line_num
              evidence :=
                { snippet := strStripWs line
                  operation := Option.some pat.name
                  target := Option.some target
                  reason :=
                    pat.name ++
                      (if target = "" then "" else " on '" ++ target ++ "'") ++
                      " - this will cause data loss"
                  confidence := "exact_match" } }

/-- Embedding of
`HighPrecisionAnalyzer._check_auth_middleware_removal`; the compiled
`AUTH_MIDDLEWARE_REMOVAL_PATTERN` regex is modelled as an abstract
matcher returning the captured middleware name on a match. -/
def check_auth_middleware_removal (auth_matcher : String → Option String)
    (file_path content : String) (diff_lines : Option (List Nat)) :
    List Finding :=
  (splitLines content).enum.flatMap fun p =>
    let line_num := p.1 + 1
    let line := p.2
    if skipLine diff_lines line_num then []
    else
      match auth_matcher line with
      | Option.none => []
      | Option.some mw =>
        [{ severity := Severity.critical
           category := Category.auth_middleware_removed
           file_path := file_path
           start_line := line_num
           end_line := line_num
           evidence :=
             { snippet := strStripWs line
               middleware := Option.some mw
               reason := "'" ++ mw ++
                 "' middleware is being removed - this may expose the route to unauthorized access"
               confidence := "structural" } }]

/-! ## Dangerous-file detection (`DANGEROUS_FILES`,
`_check_dangerous_file`) -/

/-- One entry of `DANGEROUS_FILES`: `matchesName` (Python `matches`) decides whether the
basename matches the entry's regex under `re.search`, and
`pattern_src` is the regex source text stored in the evidence. -/
structure DangerousFilePattern where
  matchesName : String → Bool
  pattern_src : String
  name : String
  category : Category
  severity : Severity

/-- Entry for `r'^\.env$'`: anchored at both ends, so under
`re.search` it matches exactly the basename `".env"`. -/
def envFilePattern : DangerousFilePattern :=
  { matchesName := fun b => b == ".env"
    pattern_src := "^\\.env$"
    name := ".env file committed"
    category := Category.env_leaked
    severity := Severity.critical }

/-- Entry for `r'^\.env\.(local|production|staging)$'`: anchored at
both ends, so it matches exactly the three listed basenames. -/
def envVariantPattern : DangerousFilePattern :=
  { matchesName := fun b =>
      b == ".env.local" || b == ".env.production" || b == ".env.staging"
    pattern_src := "^\\.env\\.(local|production|staging)$"
    name := "Environment file committed"
    category := Category.env_leaked
    severity := Severity.critical }

/-- Entry for `r'id_rsa$|id_ed25519$|id_ecdsa$'`: each alternative is
anchored only at the end, so under `re.search` it matches any basename
that ends with one of the three key names. -/
def sshKeyPattern : DangerousFilePattern :=
  { matchesName := fun b =>
      strEndsWith b "id_rsa" || strEndsWith b "id_ed25519" ||
      strEndsWith b "id_ecdsa"
    pattern_src := "id_rsa$|id_ed25519$|id_ecdsa$"
    name := "SSH private key committed"
    category := Category.private_key_exposed
    severity := Severity.critical }

/-- The `DANGEROUS_FILES` table, in source order. -/
def DANGEROUS_FILES : List DangerousFilePattern :=
  [envFilePattern, envVariantPattern, sshKeyPattern]

/-- The finding built for a matching dangerous-file pattern. -/
def dangerFinding (p : DangerousFilePattern) (file_path : String) : Finding :=
  { severity := p.severity
    category := p.category
    file_path := file_path
    start_line := 1
    end_line := 1
    evidence :=
      { snippet := file_path
        pattern := Option.some p.pattern_src
        reason := p.name ++ " - this file should not be committed"
        confidence := "exact_match" } }

/-- Embedding of `HighPrecisionAnalyzer._check_dangerous_file`. -/
def check_dangerous_file (file_path : String) : List Finding :=
  let filename := basename file_path
  DANGEROUS_FILES.filterMap fun p =>
    if p.matchesName filename then Option.some (dangerFinding p file_path)
    else Option.none

/-! ## A concrete exact pattern: the GitHub classic PAT

`ghpSearch` models `re.search` of the compiled pattern
`r'ghp_[a-zA-Z0-9]{36}'`: the leftmost position where the literal
`ghp_` is followed by exactly 36 ASCII alphanumerics, with the span of
that 40-character match. -/

/-- Character class `[a-zA-Z0-9]`. -/
def isAlnumAscii (c : Char) : Bool :=
  c.isAlpha || c.isDigit

/-- Whether `r'ghp_[a-zA-Z0-9]{36}'` matches at the head of `l`. -/
def ghpMatchAt (l : List Char) : Bool :=
  "ghp_".toList.isPrefixOf l &&
  ((l.drop 4).take 36).all isAlnumAscii &&
  36 ≤ (l.drop 4).length

/-- Leftmost-match scan for the GitHub PAT pattern. -/
def ghpSearchAux : List Char → Nat → Option (Nat × Nat)
  | [], _ => Option.none
  | c :: cs, i =>
    if ghpMatchAt (c :: cs) then Option.some (i, i + 40)
    else ghpSearchAux cs (i + 1)

/-- Model of `re.search(r'ghp_[a-zA-Z0-9]{36}', line)` returning the
match span. -/
def ghpSearch (line : String) : Option (Nat × Nat) :=
  ghpSearchAux line.toList 0

/-- The first entry of `EXACT_PATTERNS` (GitHub classic personal
access token), with its constant `redact` lambda
`lambda m: f"ghp_{'*' * 32}..."`. -/
def githubPatPattern : ExactPattern :=
  { matcher := ghpSearch
    name := "GitHub Personal Access Token"
    category := Category.secret_exposure
    severity := Severity.critical
    redact := "ghp_" ++ stars 32 ++ "..." }

/-! ## Diff parsing (`ReviewService._parse_diff_lines`) -/

/-- Value of a digit run, most significant first. -/
def digitsVal (l : List Char) : Nat :=
  l.foldl (fun n c => n * 10 + (c.toNat - '0'.toNat)) 0

/-- Model of `re.search(r'\+(\d+)', line)`: the value of the digit run
after the leftmost `'+'` that is immediately followed by a digit. -/
def firstPlusNum : List Char → Option Nat
  | [] => Option.none
  | c :: cs =>
    if c = '+' && !(cs.takeWhile Char.isDigit).isEmpty then
      Option.some (digitsVal (cs.takeWhile Char.isDigit))
    else firstPlusNum cs

/-- Embedding of `ReviewService._parse_diff_lines`: the added line
numbers of a unified diff patch. -/
def parse_diff_lines (patch : String) : List Nat :=
  if patch = "" then []
  else
    (((splitLines patch).foldl
      (fun st line =>
        if strStartsWith line "@@" then
          match firstPlusNum line.toList with
          | Option.some n => (st.1, n - 1)
          | Option.none => st
        else if strStartsWith line "+" && !(strStartsWith line "+++") then
          (st.1 ++ [st.2 + 1], st.2 + 1)
        else if !(strStartsWith line "-") then
          (st.1, st.2 + 1)
        else st)
      (([], 0) : List Nat × Nat))).1

/-! ## Hybrid retrieval (`QAService._retrieve_sources`) -/

/-- A raw search hit, as returned by `_trigram_search` or
`embedding_service.search`: the dictionary keys read by
`_retrieve_sources`. -/
structure SearchResult where
  file_path : String
  start_line : Nat
  end_line : Nat
  symbol_name : Option String
  score : ℚ
deriving DecidableEq, Repr

/-- The merge key, Python `f"{r['file_path']}:{r['start_line']}"`. -/
def sourceKey (file_path : String) (start_line : Nat) : String :=
  file_path ++ ":" ++ toString start_line

/-- One pass of the merge loop of `_retrieve_sources`: walk the search
results of one backend, skipping keys already in `seen_keys` and
appending a `RetrievedSource` (with the running 1-based index and the
given `source_type`) otherwise.  The state is
`(sources, seen_keys, index)`. -/
def addResults (stype : String) :
    List SearchResult → List RetrievedSource × List String × Nat →
      List RetrievedSource × List String × Nat
  | [], st => st
  | r :: rs, st =>
    let key := sourceKey r.file_path r.start_line
    if st.2.1.contains key then addResults stype rs st
    else
      addResults stype rs
        (st.1 ++
          [{ index := (st.2.2 : Int) + 1
             file_path := r.file_path
             start_line := r.start_line
             end_line := r.end_line
             content := ""
             symbol_name := r.symbol_name
             score := r.score
             source_type := stype }],
         key :: st.2.1, st.2.2 + 1)

/-- The merged (pre-sort) source list of `_retrieve_sources`: the
trigram pass followed by the vector pass over the shared `seen_keys`
set. -/
def mergedSources (trigram vector : List SearchResult) :
    List RetrievedSource :=
  (addResults "vector" vector (addResults "trigram" trigram ([], [], 0))).1

/-- The comparison used by
`sources.sort(key=lambda x: x.score, reverse=True)`. -/
def scoreGE (a b : RetrievedSource) : Prop :=
  b.score ≤ a.score

instance : DecidableRel scoreGE := fun a b => by
  unfold scoreGE; infer_instance

/-- Python `list.sort` is a stable sort; a stable descending sort by
score is exactly insertion sort under `scoreGE`. -/
def sortByScoreDesc (l : List RetrievedSource) : List RetrievedSource :=
  List.insertionSort scoreGE l

/-- The re-indexing loop
`for i, source in enumerate(sources[:15], 1): source.index = i`. -/
def reindexAux (i : Nat) : List RetrievedSource → List RetrievedSource
  | [] => []
  | s :: ss => { s with index := (i : Int) } :: reindexAux (i + 1) ss

/-- Embedding of `QAService._retrieve_sources` as a function of the
two backend result lists: merge with first-occurrence deduplication,
stable sort by descending score, truncate to 15, re-index from 1. -/
def retrieve_sources (trigram vector : List SearchResult) :
    List RetrievedSource :=
  reindexAux 1 ((sortByScoreDesc (mergedSources trigram vector)).take 15)

/-- Specification-level first-occurrence deduplication by merge key,
used to characterise the merge phase: keep an element iff its key has
not been seen before. -/
def dedupByKeyAux (seen : List String) :
    List (SearchResult × String) → List (SearchResult × String)
  | [] => []
  | p :: rest =>
    let key := sourceKey p.1.file_path p.1.start_line
    if seen.contains key then dedupByKeyAux seen rest
    else p :: dedupByKeyAux (key :: seen) rest

/-- The seen-key set after scanning a tagged result list. -/
def seenAfter (seen : List String) :
    List (SearchResult × String) → List String
  | [] => seen
  | p :: rest =>
    let key := sourceKey p.1.file_path p.1.start_line
    if seen.contains key then seenAfter seen rest
    else seenAfter (key :: seen) rest

/-- Tag every search result of one backend with its source type. -/
def tagResults (stype : String) (l : List SearchResult) :
    List (SearchResult × String) :=
  l.map (fun r => (r, stype))

/-- The observable payload of a retrieved source (everything except
the positional index and the lazily fetched content). -/
def sourceData (s : RetrievedSource) : String × Nat × ℚ × String :=
  (s.file_path, s.start_line, s.score, s.source_type)

/-- The payload of a tagged raw search result. -/
def taggedData (p : SearchResult × String) : String × Nat × ℚ × String :=
  (p.1.file_path, p.1.start_line, p.1.score, p.2)

/-! ## Snippet fetching (`QAService._fetch_snippets`) -/

/-- The line-slice extraction inside `_fetch_snippets`:
`lines = content.split('\n'); snippet = '\n'.join(lines[max(0, start_line-1):min(len(lines), end_line)])`. -/
def extract_snippet (content : String) (start_line end_line : Nat) : String :=
  let lines := splitLines content
  let start_idx := start_line - 1
  let end_idx := min lines.length end_line
  joinLines ((lines.drop start_idx).take (end_idx - start_idx))

/-- The size limit inside `_fetch_snippets`:
`if len(snippet) > 500: snippet = snippet[:500] + '...'`. -/
def truncate_snippet (snippet : String) : String :=
  if 500 < strLen snippet then strTake snippet 500 ++ "..." else snippet

/-- The snippet text that `_fetch_snippets` assigns to
`source.content` and passes to `_cache_snippet` (the cache stores this
very string as `content`). -/
def fetch_snippet (content : String) (start_line end_line : Nat) : String :=
  truncate_snippet (extract_snippet content start_line end_line)

/-! ## Laravel route parser (`backend/app/parsers/laravel_route_parser.py`)

The tree-sitter front end is modelled by an abstract statement tree:
a `RouteStmt` is one `Route::...` top-level call with its already
extracted chain data (HTTP method and URI, the concatenation of the
`middleware(...)` calls on the chain, the final `name(...)` value, the
parsed handler), and a group carries its `prefix(...)` value (if any),
its chain middleware and the statements of its closure body.  The
context plumbing of `_extract_routes_recursive`, `_try_parse_group`,
`_parse_http_route`, `_expand_resource` and `_build_full_uri` — which
is what the claims are about — is embedded faithfully below. -/

mutual

/-- One parsed `Route::...` statement. -/
inductive RouteStmt where
  | http (method uri : String) (mw : List String) (nm : Option String)
      (ctrl : Option String) (act : Option String) (handler_type : String)
  | res (nm ctrl : String)
  | apiRes (nm ctrl : String)
  | group (pfx : Option String) (mw : List String) (body : RouteStmtList)

/-- A sequence of route statements (a route file or a group body). -/
inductive RouteStmtList where
  | nil
  | cons (s : RouteStmt) (rest : RouteStmtList)

end

/-- Context inherited from parent groups (`RouteContext` dataclass);
`pfx` models the Python `prefix` field and `nspace` the Python
`namespace` field. -/
structure RouteContext where
  pfx : String := ""
  middleware : List String := []
  nspace : String := ""
deriving DecidableEq, Repr

/-- A fully resolved route (`ExtractedRoute` dataclass); `nm` models
the Python `name` field and `group_pfx` the Python `group_prefix`
field.  The tree-sitter node positions are not modelled, so
`start_line` and `end_line` are fixed at 0. -/
structure ExtractedRoute where
  method : String
  uri : String
  full_uri : String
  nm : Option String
  controller : Option String
  action : Option String
  handler_type : String
  middleware : List String
  group_pfx : String
  group_middleware : List String
  source_file : String
  start_line : Nat := 0
  end_line : Nat := 0
deriving DecidableEq, Repr

/-- Embedding of `LaravelRouteParser._build_full_uri`: trim `'/'` from
both sides and join. -/
def build_full_uri (pfx uri : String) : String :=
  let p := strStripChar pfx '/'
  let u := strStripChar uri '/'
  if p ≠ "" ∧ u ≠ "" then "/" ++ p ++ "/" ++ u
  else if p ≠ "" then "/" ++ p
  else if u ≠ "" then "/" ++ u
  else "/"

/-- The `RESOURCE_ACTIONS` table: `(action, method, uri suffix)`. -/
def RESOURCE_ACTIONS : List (String × String × String) :=
  [("index", "get", ""),
   ("create", "get", "/create"),
   ("store", "post", ""),
   ("show", "get", "/{id}"),
   ("edit", "get", "/{id}/edit"),
   ("update", "put", "/{id}"),
   ("destroy", "delete", "/{id}")]

/-- The `API_RESOURCE_ACTIONS` table. -/
def API_RESOURCE_ACTIONS : List (String × String × String) :=
  [("index", "get", ""),
   ("store", "post", ""),
   ("show", "get", "/{id}"),
   ("update", "put", "/{id}"),
   ("destroy", "delete", "/{id}")]

/-- Embedding of `LaravelRouteParser._expand_resource` (given the
already extracted resource name and controller class). -/
def expand_resource (resource_nm controller : String) (ctx : RouteContext)
    (is_api : Bool) (file_path : String) : List ExtractedRoute :=
  if resource_nm = "" ∨ controller = "" then []
  else
    (if is_api then API_RESOURCE_ACTIONS else RESOURCE_ACTIONS).map
      fun a =>
        let uri := "/" ++ resource_nm ++ a.2.2
        { method := strUpper a.2.1
          uri := uri
          full_uri := build_full_uri ctx.pfx uri
          nm := Option.some (resource_nm ++ "." ++ a.1)
          controller := Option.some controller
          action := Option.some a.1
          handler_type := "controller"
          middleware := ctx.middleware
          group_pfx := ctx.pfx
          group_middleware := ctx.middleware
          source_file := file_path }

/-- Embedding of `LaravelRouteParser._parse_http_route` (given the
already extracted chain data): route middleware is the context
middleware extended with the chain's own middleware calls. -/
def parse_http_route (method uri : String) (mw : List String)
    (nm : Option String) (ctrl : Option String) (act : Option String)
    (handler_type : String) (ctx : RouteContext) (file_path : String) :
    ExtractedRoute :=
  { method := strUpper method
    uri := uri
    full_uri := build_full_uri ctx.pfx uri
    nm := nm
    controller := ctrl
    action := act
    handler_type := handler_type
    middleware := ctx.middleware ++ mw
    group_pfx := ctx.pfx
    group_middleware := ctx.middleware
    source_file := file_path }

/-- The context produced by `_try_parse_group`: the prefix is applied
through `_build_full_uri` when present and non-empty (Python
`if prefix:`), and the group middleware extends the inherited list. -/
def group_context (ctx : RouteContext) (pfx : Option String)
    (mw : List String) : RouteContext :=
  { pfx :=
      match pfx with
      | Option.some p => if p ≠ "" then build_full_uri ctx.pfx p else ctx.pfx
      | Option.none => ctx.pfx
    middleware := ctx.middleware ++ mw
    nspace := ctx.nspace }

mutual

/-- Extraction of a single statement under a context, the per-node
work of `_extract_routes_recursive`. -/
def extract_stmt (ctx : RouteContext) (file_path : String) :
    RouteStmt → List ExtractedRoute
  | RouteStmt.http m u mw nm c a ht =>
      [parse_http_route m u mw nm c a ht ctx file_path]
  | RouteStmt.res n c => expand_resource n c ctx false file_path
  | RouteStmt.apiRes n c => expand_resource n c ctx true file_path
  | RouteStmt.group pfx mw body =>
      extract_stmts (group_context ctx pfx mw) file_path body

/-- Extraction of a statement sequence, accumulating routes in order
(`routes.extend(...)` of the recursive walk). -/
def extract_stmts (ctx : RouteContext) (file_path : String) :
    RouteStmtList → List ExtractedRoute
  | RouteStmtList.nil => []
  | RouteStmtList.cons s rest =>
      extract_stmt ctx file_path s ++ extract_stmts ctx file_path rest

end

/-- Wrap a statement in nested groups, outermost first. -/
def nestGroups : List (Option String × List String) → RouteStmt → RouteStmt
  | [], s => s
  | g :: gs, s =>
      RouteStmt.group g.1 g.2
        (RouteStmtList.cons (nestGroups gs s) RouteStmtList.nil)

/-- The accumulated group prefix: the `_build_full_uri` join rule
folded over the present, non-empty group prefixes, outermost first. -/
def joinGroupPfx (base : String) (gs : List (Option String)) : String :=
  gs.foldl
    (fun acc op =>
      match op with
      | Option.some p => if p ≠ "" then build_full_uri acc p else acc
      | Option.none => acc)
    base

/-! ## Concrete inputs used by counterexamples and witnesses -/

/-- A syntactically valid GitHub classic PAT (40 characters). -/
def ghpDemoSecret : String :=
  "ghp_" ++ String.mk (List.replicate 36 'A')

/-- A config line that contains the same secret twice; `re.search`
matches only the leftmost occurrence. -/
def ghpDemoLine : String :=
  "token = '" ++ ghpDemoSecret ++ "'  # backup: " ++ ghpDemoSecret

/-- A single trigram hit. -/
def c4TrigramDemo : List SearchResult :=
  [{ file_path := "app/Http/Controllers/UserController.php"
     start_line := 12
     end_line := 40
     symbol_name := Option.some "UserController"
     score := 1 }]

/-- A vector hit for the same `(file, start_line)` key with a strictly
higher normalized score. -/
def c4VectorDemo : List SearchResult :=
  [{ file_path := "app/Http/Controllers/UserController.php"
     start_line := 12
     end_line := 40
     symbol_name := Option.some "UserController"
     score := 2 }]

/-- Two trigram hits with equal scores whose file paths are in
reverse lexicographic order. -/
def c8TrigramDemo : List SearchResult :=
  [{ file_path := "routes/web.php"
     start_line := 5
     end_line := 9
     symbol_name := Option.none
     score := 1 },
   { file_path := "app/Models/User.php"
     start_line := 3
     end_line := 20
     symbol_name := Option.none
     score := 1 }]

/-- A retrieval source list with a single source of index 1. -/
def demoQASources : List RetrievedSource :=
  [{ index := 1
     file_path := "app/Http/Controllers/AuthController.php"
     start_line := 10
     end_line := 30
     content := ""
     symbol_name := Option.some "AuthController"
     score := 1
     source_type := "trigram" }]

/-- A parsed LLM answer citing one valid and one invalid source id. -/
def demoQAParsed : ParsedAnswer :=
  { sections :=
      [{ text := "Authentication is handled by AuthController"
         source_ids := [1, 7] }]
    unknowns := [] }

/-- A unified diff patch whose hunk contains no added lines. -/
def demoDeletionPatch : String :=
  "@@ -10,3 +10,2 @@\n context\n-removed\n more context"

/-! ## Helper lemmas -/

/-- The skip test never fires when the added-line set is empty. -/
lemma skipLine_some_nil : skipLine (Option.some []) = skipLine Option.none :=
  funext fun _ => rfl

/-! ## Claim theorems -/

/-- Claim C10: if the added-line set passed to the analyzer is empty
(as the PR review flow produces for a changed file whose patch
contains no added lines, cf. the last conjunct), the three line-level
detectors scan every line of the file content, behaving exactly as
when no added-line set is supplied. -/
theorem empty_diff_set_scans_all_lines :
    (∀ (patterns : List ExactPattern) (fp content : String),
        check_exact_patterns patterns fp content (Option.some []) =
          check_exact_patterns patterns fp content Option.none) ∧
    (∀ (patterns : List MigrationPattern) (fp content : String),
        check_destructive_migrations patterns fp content (Option.some []) =
          check_destructive_migrations patterns fp content Option.none) ∧
    (∀ (auth_matcher : String → Option String) (fp content : String),
        check_auth_middleware_removal auth_matcher fp content (Option.some []) =
          check_auth_middleware_removal auth_matcher fp content Option.none) ∧
    parse_diff_lines demoDeletionPatch = [] := by
  refine ⟨?_, ?_, ?_, by decide⟩
  · intro patterns fp content
    unfold check_exact_patterns
    rw [skipLine_some_nil]
  · intro patterns fp content
    unfold check_destructive_migrations
    rw [skipLine_some_nil]
  · intro auth_matcher fp content
    unfold check_auth_middleware_removal
    rw [skipLine_some_nil]

/-- Claim C2 (failing input): a line that contains the same GitHub
personal access token twice yields a `secret_exposure` finding whose
`evidence.snippet` still contains the unredacted secret, because
`_redact_line` only replaces the span of the leftmost regex match. -/
theorem secret_snippet_retains_second_occurrence :
    ((check_exact_patterns [githubPatPattern] "config/services.php"
        ghpDemoLine Option.none).map
      (fun f => (f.category, strContainsSub f.evidence.snippet ghpDemoSecret))) =
      [(Category.secret_exposure, true)] := by
  decide

/-- Claim C7 (counterexample): a file named `id_rsa` is claimed to
produce an `env_leaked` finding, but the analyzer emits a
`private_key_exposed` finding for it and no `env_leaked` finding at
all. -/
theorem id_rsa_finding_is_not_env_leaked :
    ((check_dangerous_file "id_rsa").map (fun f => f.category) =
      [Category.private_key_exposed]) ∧
    (check_dangerous_file "id_rsa").filter
        (fun f => f.category == Category.env_leaked) = [] := by
  decide

/-- Claim C4 (counterexample): for a key `(file, start_line)` present
in both search results with trigram score 1 and vector score 2, the
merged retriever output keeps the trigram entry (score 1, source type
`trigram`), not the maximum score with source type `both`. -/
theorem duplicate_key_keeps_first_not_max :
    ((retrieve_sources c4TrigramDemo c4VectorDemo).map
        (fun s => (s.score, s.source_type)) = [((1 : ℚ), "trigram")]) ∧
    ((retrieve_sources c4TrigramDemo c4VectorDemo).map
        (fun s => (s.score, s.source_type)) ≠ [((2 : ℚ), "both")]) := by
  decide

/-- Claim C8 (counterexample): two results with equal scores are kept
in merge order, not re-ordered by lexicographically lower file path:
`app/Models/User.php` sorts lexicographically before `routes/web.php`
yet comes second in the output. -/
theorem equal_scores_not_ordered_by_path :
    ((retrieve_sources c8TrigramDemo []).map
        (fun s => (s.file_path, s.score)) =
      [("routes/web.php", (1 : ℚ)), ("app/Models/User.php", (1 : ℚ))]) ∧
    ("app/Models/User.php" : String).toList < "routes/web.php".toList := by
  constructor
  · decide
  · decide

/-- Soundness of the section-validation loop: every surviving section
has non-empty text, a non-empty citation list, and only ids from the
valid set. -/
lemma validate_sections_sound (valid : Finset Int) :
    ∀ (l : List (Nat × ParsedSection)) (sec : AnswerSection),
      sec ∈ (validate_sections valid l).2 →
        sec.text ≠ "" ∧ sec.source_ids ≠ [] ∧
          ∀ sid ∈ sec.source_ids, sid ∈ valid := by
  intro l
  induction l with
  | nil => intro sec h; simp [validate_sections] at h
  | cons p rest ih =>
    intro sec h
    obtain ⟨i, sd⟩ := p
    simp only [validate_sections] at h
    by_cases h1 : sd.text = ""
    · exact ih sec (by simpa [h1] using h)
    · by_cases h2 : sd.source_ids = []
      · exact ih sec (by simpa [h1, h2] using h)
      · by_cases h3 : sd.source_ids.filter (fun sid => sid ∈ valid) = []
        · exact ih sec (by simpa [h1, h2, h3] using h)
        · simp only [if_neg h1, if_neg h2, if_neg h3] at h
          rcases List.mem_cons.mp h with heq | hmem
          · subst heq
            refine ⟨h1, h3, ?_⟩
            intro sid hsid
            have := List.mem_filter.mp hsid
            simpa using this.2
          · exact ih sec hmem

/-- Claim C1: every source id cited by a surviving section of a
validated answer is the index of a source supplied to the model, the
section's text is non-empty and its citation list is non-empty
(invalid ids are dropped, and sections with empty text or without
remaining valid ids are dropped). -/
theorem validated_answer_citations_valid
    (parsed : ParsedAnswer) (sources : List RetrievedSource)
    (sec : AnswerSection) (sid : Int)
    (hsec : sec ∈ (validate_answer parsed sources).sections)
    (hsid : sid ∈ sec.source_ids) :
    sid ∈ validIndexSet sources ∧ sec.text ≠ "" ∧ sec.source_ids ≠ [] := by
  have hsec' : sec ∈ (validate_sections (validIndexSet sources)
      parsed.sections.enum).2 := by
    simpa [validate_answer] using hsec
  obtain ⟨ht, hne, hall⟩ :=
    validate_sections_sound (validIndexSet sources) parsed.sections.enum sec hsec'
  exact ⟨hall sid hsid, ht, hne⟩

/-- Witness for C1 at a concrete validated answer: the invalid id 7 is
dropped and the surviving section cites only the supplied index 1. -/
theorem validated_answer_citations_valid_witness :
    (1 : Int) ∈ validIndexSet demoQASources ∧
    ("Authentication is handled by AuthController" : String) ≠ "" ∧
    ([(1 : Int)] : List Int) ≠ [] :=
  validated_answer_citations_valid demoQAParsed demoQASources
    ⟨"Authentication is handled by AuthController", [1]⟩ 1
    (by decide) (by decide)

/-- With no sections there are no cited ids. -/
lemma citedIds_nil : citedIds [] = ∅ := rfl

/-- Claim C3: with `C` the set of distinct cited source ids across the
surviving sections and `F` the number of distinct files the cited
sources inhabit, the computed tier is `high` iff `|C| ≥ 3 ∧ F ≥ 2`,
`medium` iff `|C| ≥ 2` and not high, `low` iff `|C| = 1`, and `none`
iff `|C| = 0` or there are no sections. -/
theorem confidence_tier_characterization
    (sections : List AnswerSection) (sources : List RetrievedSource) :
    ((calculate_confidence sections sources).1 = ConfidenceTier.high ↔
      3 ≤ (citedIds sections).card ∧ 2 ≤ uniqueCitedFiles sections sources) ∧
    ((calculate_confidence sections sources).1 = ConfidenceTier.medium ↔
      2 ≤ (citedIds sections).card ∧
        ¬(3 ≤ (citedIds sections).card ∧
          2 ≤ uniqueCitedFiles sections sources)) ∧
    ((calculate_confidence sections sources).1 = ConfidenceTier.low ↔
      (citedIds sections).card = 1) ∧
    ((calculate_confidence sections sources).1 = ConfidenceTier.none ↔
      (citedIds sections).card = 0 ∨ sections = []) := by
  by_cases hs : sections = []
  · subst hs
    simp [calculate_confidence, citedIds_nil]
  · simp only [calculate_confidence, if_neg hs]
    split_ifs with h1 h2 h3
    · obtain ⟨h1a, h1b⟩ := h1
      refine ⟨by simp [h1a, h1b], ?_, ?_, ?_⟩
      · constructor
        · intro h; simp at h
        · rintro ⟨-, hn⟩; exact absurd ⟨h1a, h1b⟩ hn
      · constructor
        · intro h; simp at h
        · intro h; omega
      · constructor
        · intro h; simp at h
        · rintro (h0 | hnil)
          · omega
          · exact absurd hnil hs
    · refine ⟨?_, by simp [h2, h1], ?_, ?_⟩
      · constructor
        · intro h; simp at h
        · intro h; exact absurd h h1
      · constructor
        · intro h; simp at h
        · intro h; omega
      · constructor
        · intro h; simp at h
        · rintro (h0 | hnil)
          · omega
          · exact absurd hnil hs
    · refine ⟨?_, ?_, ⟨fun _ => by omega, fun _ => rfl⟩, ?_⟩
      · constructor
        · intro h; simp at h
        · intro h; exact absurd h h1
      · constructor
        · intro h; simp at h
        · rintro ⟨h', -⟩; exact absurd h' h2
      · constructor
        · intro h; simp at h
        · rintro (h0 | hnil)
          · omega
          · exact absurd hnil hs
    · refine ⟨?_, ?_, ?_, ⟨fun _ => Or.inl (by omega), fun _ => rfl⟩⟩
      · constructor
        · intro h; simp at h
        · intro h; exact absurd h h1
      · constructor
        · intro h; simp at h
        · rintro ⟨h', -⟩; exact absurd h' h2
      · constructor
        · intro h; simp at h
        · intro h; omega

/-- String append acts as list append on the character lists. -/
lemma toList_append (x y : String) : (x ++ y).toList = x.toList ++ y.toList :=
  rfl

/-- Taking characters commutes with `toList`. -/
lemma toList_strTake (s : String) (n : Nat) :
    (strTake s n).toList = s.toList.take n :=
  rfl

/-- A list is a Boolean prefix of itself followed by anything. -/
lemma isPrefixOf_append_self : ∀ (l t : List Char), l.isPrefixOf (l ++ t) = true := by
  intro l t
  induction l with
  | nil => simp [List.isPrefixOf]
  | cons c cs ih => simp [List.isPrefixOf, ih]

/-- Appending a suffix makes `strEndsWith` hold for that suffix. -/
lemma strEndsWith_append (x m : String) : strEndsWith (x ++ m) m = true := by
  unfold strEndsWith
  rw [toList_append, List.reverse_append]
  exact isPrefixOf_append_self _ _

/-- Claim C9: the snippet the fetcher returns (and caches) is the
extracted line slice unchanged when it has at most 500 characters;
otherwise it is exactly the first 500 characters of the literal slice
followed by the truncation marker, so it ends with `"..."`.  In both
cases the first 500 characters of the output are literal source text
and the total length is at most 503. -/
theorem fetch_snippet_truncation (content : String) (a b : Nat) :
    (strLen (extract_snippet content a b) ≤ 500 →
      fetch_snippet content a b = extract_snippet content a b) ∧
    (500 < strLen (extract_snippet content a b) →
      fetch_snippet content a b =
        strTake (extract_snippet content a b) 500 ++ "..." ∧
      strEndsWith (fetch_snippet content a b) "..." = true) ∧
    strTake (fetch_snippet content a b) 500 =
      strTake (extract_snippet content a b) 500 ∧
    strLen (fetch_snippet content a b) ≤ 503 := by
  have h3 : ("..." : String).toList.length = 3 := rfl
  refine ⟨?_, ?_, ?_, ?_⟩
  · intro hle
    unfold fetch_snippet truncate_snippet
    rw [if_neg (by omega : ¬ 500 < strLen (extract_snippet content a b))]
  · intro hgt
    refine ⟨?_, ?_⟩
    · unfold fetch_snippet truncate_snippet
      rw [if_pos hgt]
    · unfold fetch_snippet truncate_snippet
      rw [if_pos hgt]
      exact strEndsWith_append _ _
  · unfold fetch_snippet truncate_snippet
    by_cases h : 500 < strLen (extract_snippet content a b)
    · rw [if_pos h]
      have hlen : (List.take 500 (extract_snippet content a b).toList).length = 500 := by
        rw [List.length_take]
        unfold strLen at h
        omega
      show String.mk ((strTake (extract_snippet content a b) 500 ++
        ("..." : String)).toList.take 500) = strTake (extract_snippet content a b) 500
      rw [toList_append, toList_strTake, List.take_left' hlen]
      rfl
    · rw [if_neg h]
  · unfold fetch_snippet truncate_snippet
    by_cases h : 500 < strLen (extract_snippet content a b)
    · rw [if_pos h]
      unfold strLen
      rw [toList_append, toList_strTake, List.length_append, List.length_take]
      unfold strLen at h
      omega
    · rw [if_neg h]
      omega

/-- Membership in the dangerous-file findings, unfolded over the
three-entry pattern table. -/
lemma mem_check_dangerous_file (fp : String) (f : Finding) :
    f ∈ check_dangerous_file fp ↔
      ∃ p ∈ DANGEROUS_FILES,
        p.matchesName (basename fp) = true ∧ f = dangerFinding p fp := by
  unfold check_dangerous_file
  simp only [List.mem_filterMap]
  constructor
  · rintro ⟨p, hp, hsome⟩
    by_cases h : p.matchesName (basename fp) = true
    · rw [if_pos h] at hsome
      exact ⟨p, hp, h, (Option.some_inj.mp hsome).symm⟩
    · rw [if_neg h] at hsome
      exact absurd hsome (by simp)
  · rintro ⟨p, hp, h, rfl⟩
    exact ⟨p, hp, by rw [if_pos h]⟩

/-- Claim C7 (amended): the analyzer emits an `env_leaked` finding for
a file exactly when its basename is `.env`, `.env.local`,
`.env.production` or `.env.staging`; a basename ending in `id_rsa`,
`id_ed25519` or `id_ecdsa` instead yields a `private_key_exposed`
finding.  Every `env_leaked` finding is critical; in particular a file
named `.env` produces exactly one critical `env_leaked` finding while
`.env.example` produces none. -/
theorem dangerous_file_category_characterization (fp : String) :
    ((∃ f ∈ check_dangerous_file fp, f.category = Category.env_leaked) ↔
      (basename fp = ".env" ∨ basename fp = ".env.local" ∨
        basename fp = ".env.production" ∨ basename fp = ".env.staging")) ∧
    ((∃ f ∈ check_dangerous_file fp,
        f.category = Category.private_key_exposed) ↔
      (strEndsWith (basename fp) "id_rsa" = true ∨
        strEndsWith (basename fp) "id_ed25519" = true ∨
        strEndsWith (basename fp) "id_ecdsa" = true)) ∧
    (∀ f ∈ check_dangerous_file fp,
      f.category = Category.env_leaked → f.severity = Severity.critical) ∧
    ((check_dangerous_file ".env").map (fun f => (f.category, f.severity)) =
      [(Category.env_leaked, Severity.critical)]) ∧
    check_dangerous_file ".env.example" = [] := by
  refine ⟨?_, ?_, ?_, by decide, by decide⟩
  · constructor
    · rintro ⟨f, hf, hcat⟩
      obtain ⟨p, hp, hm, rfl⟩ := (mem_check_dangerous_file fp f).mp hf
      simp only [DANGEROUS_FILES, List.mem_cons, List.not_mem_nil, or_false] at hp
      rcases hp with rfl | rfl | rfl
      · simp only [envFilePattern, beq_iff_eq] at hm
        exact Or.inl hm
      · simp only [envVariantPattern, Bool.or_eq_true, beq_iff_eq] at hm
        tauto
      · simp [sshKeyPattern, dangerFinding] at hcat
    · intro h
      have hm : envFilePattern.matchesName (basename fp) = true ∨
          envVariantPattern.matchesName (basename fp) = true := by
        rcases h with h | h | h | h
        · exact Or.inl (by simp [envFilePattern, h])
        · exact Or.inr (by simp [envVariantPattern, h])
        · exact Or.inr (by simp [envVariantPattern, h])
        · exact Or.inr (by simp [envVariantPattern, h])
      rcases hm with hm | hm
      · refine ⟨dangerFinding envFilePattern fp, ?_, rfl⟩
        exact (mem_check_dangerous_file fp _).mpr
          ⟨envFilePattern, by simp [DANGEROUS_FILES], hm, rfl⟩
      · refine ⟨dangerFinding envVariantPattern fp, ?_, rfl⟩
        exact (mem_check_dangerous_file fp _).mpr
          ⟨envVariantPattern, by simp [DANGEROUS_FILES], hm, rfl⟩
  · constructor
    · rintro ⟨f, hf, hcat⟩
      obtain ⟨p, hp, hm, rfl⟩ := (mem_check_dangerous_file fp f).mp hf
      simp only [DANGEROUS_FILES, List.mem_cons, List.not_mem_nil, or_false] at hp
      rcases hp with rfl | rfl | rfl
      · simp [envFilePattern, dangerFinding] at hcat
      · simp [envVariantPattern, dangerFinding] at hcat
      · simp only [sshKeyPattern, Bool.or_eq_true] at hm
        tauto
    · intro h
      have hm : sshKeyPattern.matchesName (basename fp) = true := by
        simp only [sshKeyPattern, Bool.or_eq_true]
        tauto
      refine ⟨dangerFinding sshKeyPattern fp, ?_, rfl⟩
      exact (mem_check_dangerous_file fp _).mpr
        ⟨sshKeyPattern, by simp [DANGEROUS_FILES], hm, rfl⟩
  · intro f hf hcat
    obtain ⟨p, hp, hm, rfl⟩ := (mem_check_dangerous_file fp f).mp hf
    simp only [DANGEROUS_FILES, List.mem_cons, List.not_mem_nil, or_false] at hp
    rcases hp with rfl | rfl | rfl <;> rfl

/-- Characterisation of one merge pass: the accumulated sources grow
by exactly the first-occurrence deduplication of the pass's tagged
results (projected to their payload), and the seen-key set grows
accordingly. -/
lemma addResults_spec (stype : String) :
    ∀ (rs : List SearchResult) (acc : List RetrievedSource)
      (seen : List String) (idx : Nat),
      ((addResults stype rs (acc, seen, idx)).1.map sourceData =
        acc.map sourceData ++
          (dedupByKeyAux seen (tagResults stype rs)).map taggedData) ∧
      (addResults stype rs (acc, seen, idx)).2.1 =
        seenAfter seen (tagResults stype rs) := by
  intro rs
  induction rs with
  | nil =>
    intro acc seen idx
    simp [addResults, tagResults, dedupByKeyAux, seenAfter]
  | cons r rest ih =>
    intro acc seen idx
    by_cases hk : seen.contains (sourceKey r.file_path r.start_line) = true
    · have h1 := ih acc seen idx
      constructor
      · simp only [addResults, tagResults, List.map_cons, dedupByKeyAux,
          hk, if_true]
        simpa [tagResults] using h1.1
      · simp only [addResults, tagResults, List.map_cons, seenAfter,
          hk, if_true]
        simpa [tagResults] using h1.2
    · have h1 := ih (acc ++
        [{ index := (idx : Int) + 1
           file_path := r.file_path
           start_line := r.start_line
           end_line := r.end_line
           content := ""
           symbol_name := r.symbol_name
           score := r.score
           source_type := stype }]) (sourceKey r.file_path r.start_line :: seen)
        (idx + 1)
      constructor
      · simp only [addResults, tagResults, List.map_cons, dedupByKeyAux,
          hk, if_false, Bool.false_eq_true]
        rw [h1.1]
        simp [sourceData, taggedData, tagResults, List.map_append]
      · simp only [addResults, seenAfter, tagResults, List.map_cons]
        rw [if_neg hk, if_neg hk]
        simpa [tagResults] using h1.2

/-- First-occurrence deduplication distributes over append, threading
the seen-key set. -/
lemma dedupByKeyAux_append (xs ys : List (SearchResult × String)) :
    ∀ seen, dedupByKeyAux seen (xs ++ ys) =
      dedupByKeyAux seen xs ++ dedupByKeyAux (seenAfter seen xs) ys := by
  induction xs with
  | nil => intro seen; simp [dedupByKeyAux, seenAfter]
  | cons p rest ih =>
    intro seen
    by_cases h : seen.contains (sourceKey p.1.file_path p.1.start_line) = true
    · simp only [List.cons_append, dedupByKeyAux, seenAfter, h, if_true]
      exact ih seen
    · simp only [List.cons_append, dedupByKeyAux, seenAfter]
      rw [if_neg h, if_neg h, if_neg h]
      simp only [List.append_eq]
      rw [ih, List.cons_append]

/-- Claim C4 (amended): when the hybrid retriever merges trigram and
vector results by the key `(file, start_line)`, the merged list is
exactly the first-occurrence deduplication of the trigram results
followed by the vector results: a key appearing in both searches keeps
the trigram entry with its score and source type `trigram`, and the
vector duplicate is dropped (no maximum is taken and no `both` source
type exists). -/
theorem merged_sources_first_occurrence
    (trigram vector : List SearchResult) :
    (mergedSources trigram vector).map sourceData =
      (dedupByKeyAux []
          (tagResults "trigram" trigram ++ tagResults "vector" vector)).map
        taggedData := by
  unfold mergedSources
  have h1 := addResults_spec "trigram" trigram [] [] 0
  have h2 := addResults_spec "vector" vector
    (addResults "trigram" trigram ([], [], 0)).1
    (addResults "trigram" trigram ([], [], 0)).2.1
    (addResults "trigram" trigram ([], [], 0)).2.2
  rw [dedupByKeyAux_append]
  calc (addResults "vector" vector (addResults "trigram" trigram ([], [], 0))).1.map
        sourceData
      = (addResults "trigram" trigram ([], [], 0)).1.map sourceData ++
          (dedupByKeyAux ((addResults "trigram" trigram ([], [], 0)).2.1)
            (tagResults "vector" vector)).map taggedData := h2.1
    _ = _ := by
        rw [h1.1, h1.2]
        simp

instance : IsTotal RetrievedSource scoreGE :=
  ⟨fun a b => le_total b.score a.score⟩

instance : IsTrans RetrievedSource scoreGE :=
  ⟨fun _ _ _ hab hbc => le_trans hbc hab⟩

/-- Inserting an element never reorders the elements of any fixed
score: all elements the insertion walks past have strictly larger
score. -/
lemma orderedInsert_filter_score (q : ℚ) (x : RetrievedSource) :
    ∀ l : List RetrievedSource,
      (List.orderedInsert scoreGE x l).filter (fun s => decide (s.score = q)) =
        (x :: l).filter (fun s => decide (s.score = q)) := by
  intro l
  induction l with
  | nil => simp [List.orderedInsert]
  | cons y ys ih =>
    rw [List.orderedInsert]
    by_cases hr : scoreGE x y
    · rw [if_pos hr]
    · rw [if_neg hr]
      by_cases px : x.score = q
      · have py : ¬ y.score = q := by
          intro hy
          exact hr (show y.score ≤ x.score by rw [hy, px])
        simp [List.filter_cons, ih, px, py]
      · simp [List.filter_cons, ih, px]

/-- The stable sort keeps the relative order of equal-score elements:
filtering any fixed score commutes with sorting. -/
lemma sortByScoreDesc_filter_score (q : ℚ) :
    ∀ l : List RetrievedSource,
      (sortByScoreDesc l).filter (fun s => decide (s.score = q)) =
        l.filter (fun s => decide (s.score = q)) := by
  intro l
  induction l with
  | nil => rfl
  | cons x xs ih =>
    unfold sortByScoreDesc at *
    rw [List.insertionSort, orderedInsert_filter_score, List.filter_cons,
      List.filter_cons, ih]

/-- Re-indexing changes only the `index` field. -/
lemma reindexAux_map_score :
    ∀ (l : List RetrievedSource) (i : Nat),
      (reindexAux i l).map (fun s => s.score) = l.map (fun s => s.score) := by
  intro l
  induction l with
  | nil => intro i; rfl
  | cons x xs ih => intro i; simp [reindexAux, ih]

/-- Claim C8 (amended): the final retriever output is sorted by score
descending, and the sort is stable: among equal scores the merge-phase
order (trigram pass before vector pass, each in search-return order)
is preserved, so the numbered list is a deterministic function of the
two search result lists.  The claimed lexicographic file/line
tie-break does not exist. -/
theorem retrieve_sources_score_ordering (trigram vector : List SearchResult) :
    ((retrieve_sources trigram vector).map (fun s => s.score)).Pairwise
      (· ≥ ·) ∧
    ∀ q : ℚ,
      (sortByScoreDesc (mergedSources trigram vector)).filter
          (fun s => decide (s.score = q)) =
        (mergedSources trigram vector).filter
          (fun s => decide (s.score = q)) := by
  constructor
  · unfold retrieve_sources
    rw [reindexAux_map_score, List.pairwise_map]
    have hs : List.Sorted scoreGE
        (sortByScoreDesc (mergedSources trigram vector)) :=
      List.sorted_insertionSort scoreGE _
    exact List.Pairwise.sublist (List.take_sublist _ _) hs
  · intro q
    exact sortByScoreDesc_filter_score q _

/-- Extraction of a single http route wrapped in nested groups, for an
arbitrary starting context: the full URI folds the join rule over the
group prefixes and the middleware concatenates outermost-first. -/
lemma extract_nestGroups_general (fp method uri : String) (mw : List String)
    (nm ctrl act : Option String) (htype : String) :
    ∀ (groups : List (Option String × List String)) (ctx : RouteContext),
      extract_stmts ctx fp
          (RouteStmtList.cons
            (nestGroups groups (RouteStmt.http method uri mw nm ctrl act htype))
            RouteStmtList.nil) =
        [{ method := strUpper method
           uri := uri
           full_uri :=
             build_full_uri (joinGroupPfx ctx.pfx (groups.map Prod.fst)) uri
           nm := nm
           controller := ctrl
           action := act
           handler_type := htype
           middleware := (ctx.middleware ++ (groups.map Prod.snd).flatten) ++ mw
           group_pfx := joinGroupPfx ctx.pfx (groups.map Prod.fst)
           group_middleware := ctx.middleware ++ (groups.map Prod.snd).flatten
           source_file := fp }] := by
  intro groups
  induction groups with
  | nil =>
    intro ctx
    simp [nestGroups, extract_stmts, extract_stmt, parse_http_route,
      joinGroupPfx]
  | cons g gs ih =>
    intro ctx
    obtain ⟨op, gmw⟩ := g
    have h := ih (group_context ctx op gmw)
    simp only [extract_stmts, List.append_nil] at h
    simp only [nestGroups, extract_stmts, extract_stmt, List.append_nil]
    rw [h]
    simp only [group_context, joinGroupPfx, List.map_cons, List.foldl_cons,
      List.flatten_cons, List.append_assoc]

/-- Claim C5: for a route nested in any chain of groups, `full_uri` is
the join (under the trim-and-slash rule of `_build_full_uri`) of the
enclosing group prefixes, outermost first, with the route's own URI,
and `middleware` is the group middleware concatenated in order
followed by the route's own middleware, preserving order and
duplicates. -/
theorem nested_route_full_uri_and_middleware
    (groups : List (Option String × List String))
    (fp method uri : String) (mw : List String)
    (nm ctrl act : Option String) (htype : String) :
    extract_stmts {} fp
        (RouteStmtList.cons
          (nestGroups groups (RouteStmt.http method uri mw nm ctrl act htype))
          RouteStmtList.nil) =
      [{ method := strUpper method
         uri := uri
         full_uri := build_full_uri (joinGroupPfx "" (groups.map Prod.fst)) uri
         nm := nm
         controller := ctrl
         action := act
         handler_type := htype
         middleware := (groups.map Prod.snd).flatten ++ mw
         group_pfx := joinGroupPfx "" (groups.map Prod.fst)
         group_middleware := (groups.map Prod.snd).flatten
         source_file := fp }] := by
  have h := extract_nestGroups_general fp method uri mw nm ctrl act htype
    groups {}
  simpa using h

/-- Appending the empty string is the identity. -/
lemma str_append_empty : ∀ s : String, s ++ "" = s
  | ⟨l⟩ => congrArg String.mk (List.append_nil l)

/-- Upper-casing the HTTP verb literals. -/
lemma strUpper_get : strUpper "get" = "GET" := rfl

/-- Upper-casing the HTTP verb literals. -/
lemma strUpper_post : strUpper "post" = "POST" := rfl

/-- Upper-casing the HTTP verb literals. -/
lemma strUpper_put : strUpper "put" = "PUT" := rfl

/-- Upper-casing the HTTP verb literals. -/
lemma strUpper_delete : strUpper "delete" = "DELETE" := rfl

/-- The shape shared by the routes of a resource expansion: inherits
the frame's prefix and middleware and is named `<resource>.<action>`. -/
def resourceRoute (ctx : RouteContext) (fp n c action_nm method uri : String) :
    ExtractedRoute :=
  { method := method
    uri := uri
    full_uri := build_full_uri ctx.pfx uri
    nm := Option.some (n ++ "." ++ action_nm)
    controller := Option.some c
    action := Option.some action_nm
    handler_type := "controller"
    middleware := ctx.middleware
    group_pfx := ctx.pfx
    group_middleware := ctx.middleware
    source_file := fp }

/-- Claim C6: a `resource(n, c)` call with non-empty name and
controller expands into exactly the 7 routes index/create/store/show/
edit/update/destroy with the stated verbs and URIs, and
`apiResource(n, c)` into exactly the 5 of those omitting `create` and
`edit`; every expanded route inherits the enclosing frame's prefix and
middleware and carries the name `<n>.<action>`. -/
theorem resource_expansion_routes (ctx : RouteContext) (n c fp : String)
    (hn : n ≠ "") (hc : c ≠ "") :
    (extract_stmts ctx fp
        (RouteStmtList.cons (RouteStmt.res n c) RouteStmtList.nil) =
      [resourceRoute ctx fp n c "index" "GET" ("/" ++ n),
       resourceRoute ctx fp n c "create" "GET" ("/" ++ n ++ "/create"),
       resourceRoute ctx fp n c "store" "POST" ("/" ++ n),
       resourceRoute ctx fp n c "show" "GET" ("/" ++ n ++ "/{id}"),
       resourceRoute ctx fp n c "edit" "GET" ("/" ++ n ++ "/{id}/edit"),
       resourceRoute ctx fp n c "update" "PUT" ("/" ++ n ++ "/{id}"),
       resourceRoute ctx fp n c "destroy" "DELETE" ("/" ++ n ++ "/{id}")]) ∧
    (extract_stmts ctx fp
        (RouteStmtList.cons (RouteStmt.apiRes n c) RouteStmtList.nil) =
      [resourceRoute ctx fp n c "index" "GET" ("/" ++ n),
       resourceRoute ctx fp n c "store" "POST" ("/" ++ n),
       resourceRoute ctx fp n c "show" "GET" ("/" ++ n ++ "/{id}"),
       resourceRoute ctx fp n c "update" "PUT" ("/" ++ n ++ "/{id}"),
       resourceRoute ctx fp n c "destroy" "DELETE" ("/" ++ n ++ "/{id}")]) := by
  have hg : ¬(n = "" ∨ c = "") := not_or.mpr ⟨hn, hc⟩
  constructor
  · simp only [extract_stmts, extract_stmt, List.append_nil, expand_resource,
      if_neg hg, Bool.false_eq_true, if_false, RESOURCE_ACTIONS,
      List.map_cons, List.map_nil, resourceRoute, strUpper_get, strUpper_post,
      strUpper_put, strUpper_delete, str_append_empty]
  · simp only [extract_stmts, extract_stmt, List.append_nil, expand_resource,
      if_neg hg, if_true, API_RESOURCE_ACTIONS,
      List.map_cons, List.map_nil, resourceRoute, strUpper_get, strUpper_post,
      strUpper_put, strUpper_delete, str_append_empty]

/-- Witness for C6 at a concrete resource call: `posts` with
`PostController` yields exactly 7 and 5 routes. -/
theorem resource_expansion_routes_witness :
    (extract_stmts {} "routes/web.php"
        (RouteStmtList.cons (RouteStmt.res "posts" "PostController")
          RouteStmtList.nil)).length = 7 ∧
    (extract_stmts {} "routes/web.php"
        (RouteStmtList.cons (RouteStmt.apiRes "posts" "PostController")
          RouteStmtList.nil)).length = 5 := by
  have h := resource_expansion_routes {} "posts" "PostController"
    "routes/web.php" (by decide) (by decide)
  rw [h.1, h.2]
  exact ⟨rfl, rfl⟩

end CodeProof
